import Mathlib

/-!
Verification of the LightningViewer ingest / store / purge core.

The Python sources are shallowly embedded as follows:

* UTC instants are modelled as `Int` minutes since an arbitrary epoch.
  All timestamps handled by the code are `datetime.isoformat()` TEXT
  values of minute granularity; `isoformat` is injective and
  order-preserving, so SQLite's lexicographic TEXT comparison agrees
  with the `Int` order of this embedding.
* The SQLite tables of `init_db_blitz.py` become lists:
  `impacts` is a list of `(rowid, Row)` pairs in rowid (scan) order,
  `impacts_rtree` a list of `RtreeEntry`, `events` a list of `Event`.
* `NULL`able columns become `Option`; SQLite's rule that `NULL` primary
  key components never compare equal is embedded in `optKeyEq`.
-/

namespace LightningViewer

/-- A parsed provider record (one JSON line); `.get` on a missing key
yields `None`, hence the `Option` fields. -/
structure Record where
  lat : Option Int
  lon : Option Int
  mcg : Option Int
deriving DecidableEq, Repr

/-- A row of the `impacts` table (`init_db_blitz.py` lines 24-32). -/
structure Row where
  timestamp : Int
  lat : Option Int
  lon : Option Int
  mcg : Option Int
deriving DecidableEq, Repr

/-- A row of the `impacts_rtree` virtual table. -/
structure RtreeEntry where
  id : Nat
  minLat : Int
  maxLat : Int
  minLon : Int
  maxLon : Int
deriving DecidableEq, Repr

/-- A row of the `events` table (`purge_blitz.py` lines 108-115). -/
structure Event where
  timestamp : Int
  eventType : String
  details : String
  period : Option Int
deriving DecidableEq, Repr

/-- The persistent store: the three tables of `blitz.db`.  `impacts`
keeps its rowids explicitly because `impacts_rtree.id` references them. -/
structure DB where
  impacts : List (Nat × Row)
  impactsRtree : List RtreeEntry
  events : List Event
deriving DecidableEq, Repr

/-- A freshly initialised database (all tables empty). -/
def emptyDB : DB := ⟨[], [], []⟩

/-! ### blitz_range_download_V7.daterange (lines 60-64)

`daterange(start, end, step=10)` truncates `start` to the enclosing
10-minute slot (`minute=(start.minute // 10) * 10`, seconds zeroed) and
yields slots `while cur <= end`.  At minute granularity the truncation
is flooring to a multiple of 10; `Int.fdiv` floors like Python's `//`
acting on the minute-of-hour field.  The `step` parameter is only ever
used at its default 10, which is inlined here. -/

/-- Truncation of an instant to its 10-minute slot boundary (line 61). -/
def truncSlot (start : Int) : Int := 10 * Int.fdiv start 10

/-- The `while cur <= end` loop body of `daterange` (lines 62-64). -/
def daterangeAux (cur stop : Int) : List Int :=
  if cur ≤ stop then cur :: daterangeAux (cur + 10) stop else []
termination_by (stop + 10 - cur).toNat
decreasing_by simp_wf; omega

/-- `daterange(start, end)` (lines 60-64). -/
def daterange (start stop : Int) : List Int :=
  daterangeAux (truncSlot start) stop

theorem mem_daterangeAux (cur stop t : Int) :
    t ∈ daterangeAux cur stop ↔ ∃ k : Nat, t = cur + 10 * k ∧ t ≤ stop := by
  induction cur, stop using daterangeAux.induct with
  | case1 cur stop h ih =>
    rw [daterangeAux, if_pos h]
    constructor
    · intro ht
      rcases List.mem_cons.mp ht with h0 | hrest
      · exact ⟨0, by simpa using h0, by omega⟩
      · rcases ih.mp hrest with ⟨k, hk, hle⟩
        exact ⟨k + 1, by push_cast [hk]; ring, hle⟩
    · rintro ⟨k, hk, hle⟩
      cases k with
      | zero => simp [List.mem_cons]; omega
      | succ k =>
        refine List.mem_cons.mpr (Or.inr (ih.mpr ⟨k, ?_, hle⟩))
        push_cast [hk]; ring
  | case2 cur stop h =>
    rw [daterangeAux, if_neg h]
    simp only [List.not_mem_nil, false_iff, not_exists, not_and]
    rintro k rfl
    have : (0 : Int) ≤ 10 * (k : Int) := by positivity
    omega

theorem mem_daterange (start stop t : Int) :
    t ∈ daterange start stop ↔ ∃ k : Nat, t = truncSlot start + 10 * k ∧ t ≤ stop :=
  mem_daterangeAux (truncSlot start) stop t

/-! ### blitz_range_download_V7.main: range clamping and unit selection
(lines 167-189).  `main` converts the parsed range to UTC, clamps the
end to "now" (lines 170-173: `if end_utc > now_utc: end_utc = now_utc`)
— the start is used as given, no look-back clamp exists — then drops the
slots whose isoformat is already among the distinct `impacts` timestamps
(lines 179-189). -/

/-- The end-of-range clamp of `main` (lines 170-173). -/
def clampEnd (stop now : Int) : Int := if stop > now then now else stop

/-- `heures_a_telecharger` (lines 186-189): slots of the range whose
timestamp is not yet in the store.  `existing` models the set built from
`SELECT DISTINCT timestamp FROM impacts` (lines 180-183). -/
def heures_a_telecharger (start stop : Int) (existing : List Int) : List Int :=
  (daterange start stop).filter (fun ts => decide (ts ∉ existing))

/-- The fetch units `main` hands to the worker pool: the clamp of
lines 170-173 followed by the set difference of lines 186-189. -/
def attemptedUnits (start stop now : Int) (existing : List Int) : List Int :=
  heures_a_telecharger start (clampEnd stop now) existing

theorem mem_heures_a_telecharger (start stop : Int) (existing : List Int) (ts : Int) :
    ts ∈ heures_a_telecharger start stop existing ↔
      ts ∈ daterange start stop ∧ ts ∉ existing := by
  simp [heures_a_telecharger, List.mem_filter]

/-- C2 counterexample: the slot equal to the range end IS fetched —
`daterange` iterates `while cur <= end` — and the 00:00Z→00:20Z example
(minutes 0 to 20, store empty, now far in the future) attempts exactly
3 fetch units, not 2. -/
theorem c2_daterange_inclusive_end :
    (20 : Int) ∈ daterange 0 20 ∧
    attemptedUnits 0 20 10000 [] = [0, 10, 20] ∧
    (attemptedUnits 0 20 10000 []).length ≠ 2 := by
  have h : daterange 0 20 = [0, 10, 20] := by
    rw [daterange]
    norm_num [truncSlot]
    rw [daterangeAux]; norm_num
    rw [daterangeAux]; norm_num
    rw [daterangeAux]; norm_num
    rw [daterangeAux]; norm_num
  refine ⟨by rw [h]; decide, ?_, ?_⟩ <;>
    simp [attemptedUnits, clampEnd, heures_a_telecharger, h]

/-- C2 amended: the fetch units are derived deterministically by
truncating `start` to the 10-minute slot boundary and stepping in
10-minute increments over the CLOSED interval `[start, end]` — a slot
whose timestamp equals the (clamped) end IS fetched — and the
00:00Z→00:20Z example attempts exactly 3 fetch units. -/
theorem c2_amended_units_closed_interval :
    (∀ start stop t : Int,
       t ∈ daterange start stop ↔ ∃ k : Nat, t = truncSlot start + 10 * k ∧ t ≤ stop) ∧
    (attemptedUnits 0 20 10000 []).length = 3 := by
  refine ⟨mem_daterange, ?_⟩
  have h : daterange 0 20 = [0, 10, 20] := by
    rw [daterange]
    norm_num [truncSlot]
    rw [daterangeAux]; norm_num
    rw [daterangeAux]; norm_num
    rw [daterangeAux]; norm_num
    rw [daterangeAux]; norm_num
  simp [attemptedUnits, clampEnd, heures_a_telecharger, h]

/-- C3: a fetch unit is attempted iff its slot timestamp is in the
requested range and absent from the store's distinct timestamps; with
10 slots of which 5 already exist, exactly the other 5 are attempted. -/
theorem c3_unit_set_difference :
    (∀ (start stop : Int) (existing : List Int) (ts : Int),
       ts ∈ heures_a_telecharger start stop existing ↔
         ts ∈ daterange start stop ∧ ts ∉ existing) ∧
    heures_a_telecharger 0 90 [0, 20, 40, 60, 80] = [10, 30, 50, 70, 90] := by
  refine ⟨mem_heures_a_telecharger, ?_⟩
  have h : daterange 0 90 = [0, 10, 20, 30, 40, 50, 60, 70, 80, 90] := by
    rw [daterange]
    norm_num [truncSlot]
    rw [daterangeAux]; norm_num
    rw [daterangeAux]; norm_num
    rw [daterangeAux]; norm_num
    rw [daterangeAux]; norm_num
    rw [daterangeAux]; norm_num
    rw [daterangeAux]; norm_num
    rw [daterangeAux]; norm_num
    rw [daterangeAux]; norm_num
    rw [daterangeAux]; norm_num
    rw [daterangeAux]; norm_num
    rw [daterangeAux]; norm_num
  simp [heures_a_telecharger, h]

/-- C8 counterexample: `main` never clamps the start of the range; a
start 1 000 000 minutes (≈ 694 days) in the past yields an attempted
fetch unit far beyond any look-back horizon (the documented retention
default is 15 days = 21 600 minutes). -/
theorem c8_no_lookback_clamp :
    (-1000000 : Int) ∈ attemptedUnits (-1000000) 0 0 [] ∧
    (-1000000 : Int) < 0 - 21600 := by
  refine ⟨?_, by decide⟩
  rw [attemptedUnits, mem_heures_a_telecharger, mem_daterange]
  refine ⟨⟨0, ?_, ?_⟩, by decide⟩
  · rw [truncSlot]; decide
  · simp [clampEnd]

/-- The start clamp of `cli._cmd_download` (cli.py lines 107-113): the
CLI wrapper — and only it — replaces a start more than 15 days
(21 600 minutes) old by `now - 15 days` before handing the range to the
downloader.  The downloader's own `main`, also invoked directly by
`update_blitz`, never applies it. -/
def cliClampStart (start now : Int) : Int :=
  if start < now - 21600 then now - 21600 else start

theorem truncSlot_bounds (s : Int) : s - 10 < truncSlot s ∧ truncSlot s ≤ s := by
  rw [truncSlot, Int.fdiv_eq_ediv _ (by norm_num)]
  omega

/-- C8 amended: before computing fetch units, `main` clamps the end to
the current time — so no attempted slot lies after "now" — but the
start is passed through unchanged: any slot boundary at or before the
clamped end, however old, is attempted when absent from the store.  The
15-day look-back clamp exists only in the CLI wrapper `_cmd_download`:
a range that passed through it yields no slot older than the 10-minute
boundary below now minus 15 days. -/
theorem c8_amended_end_clamp_only (start stop now : Int) (existing : List Int) :
    (∀ t ∈ attemptedUnits start stop now existing, t ≤ now) ∧
    (truncSlot start ≤ clampEnd stop now → truncSlot start ∉ existing →
       truncSlot start ∈ attemptedUnits start stop now existing) ∧
    (∀ t ∈ attemptedUnits (cliClampStart start now) stop now existing,
       now - 21609 ≤ t) := by
  refine ⟨?_, ?_, ?_⟩
  · intro t ht
    rcases (mem_heures_a_telecharger _ _ _ _).mp ht with ⟨hmem, -⟩
    rcases (mem_daterange _ _ _).mp hmem with ⟨k, -, hle⟩
    have : clampEnd stop now ≤ now := by
      rw [clampEnd]; split <;> omega
    omega
  · intro hle hnot
    exact (mem_heures_a_telecharger _ _ _ _).mpr
      ⟨(mem_daterange _ _ _).mpr ⟨0, by ring, by simpa using hle⟩, hnot⟩
  · intro t ht
    rcases (mem_heures_a_telecharger _ _ _ _).mp ht with ⟨hmem, -⟩
    rcases (mem_daterange _ _ _).mp hmem with ⟨k, hk, -⟩
    have hcl : now - 21600 ≤ cliClampStart start now := by
      rw [cliClampStart]; split <;> omega
    have htr := truncSlot_bounds (cliClampStart start now)
    have hk10 : (0 : Int) ≤ 10 * (k : Int) := by positivity
    omega

/-- Witness for the amended C8 theorem at a concrete very old start. -/
theorem c8_amended_witness :
    truncSlot (-1000000) ∈ attemptedUnits (-1000000) 0 0 [] :=
  (c8_amended_end_clamp_only (-1000000) 0 0 []).2.1 (by rw [truncSlot, clampEnd]; decide)
    (by decide)

/-! ### blitz_range_download_V7.download_one: payload parsing (line 91)

`lignes_valides = [json.loads(l) for l in data.decode("utf-8").splitlines() if l.strip()]`

The comprehension filters out blank lines (`if l.strip()`) and applies
`json.loads` to the rest.  `json.loads` RAISES on an unparseable line;
the comprehension then aborts with that exception, which propagates out
of `download_one` — the surrounding handler (lines 130-136) catches only
`requests.RequestException`.  The abstract `parseJson` parameter stands
for `json.loads`; `none` is the raising outcome, and the `Option` result
of `lignesValides` propagates that abort. -/

/-- `l.strip()` is falsy exactly when every character of `l` is
whitespace; the comprehension's `if l.strip()` keeps the non-blank
lines. -/
def isBlank (l : String) : Bool := l.data.all Char.isWhitespace

/-- The line-91 comprehension: blank lines dropped, first parse failure
aborts the whole payload. -/
def lignesValides (parseJson : String → Option Record) : List String → Option (List Record)
  | [] => some []
  | l :: ls =>
    if isBlank l then lignesValides parseJson ls
    else
      match parseJson l with
      | none => none
      | some r =>
        match lignesValides parseJson ls with
        | none => none
        | some rs => some (r :: rs)

/-- A sample parser for the counterexample: the line "ok" parses, every
other line raises. -/
def demoParse (l : String) : Option Record :=
  if l = "ok" then some ⟨some 1, some 2, none⟩ else none

/-- C1 counterexample: a payload holding one parseable line "ok" and one
unparseable line "oops" yields no record list at all — the parseable
record is NOT inserted and the whole unit aborts, contradicting the
per-record drop the claim describes. -/
theorem c1_parse_failure_aborts_unit :
    demoParse "ok" = some ⟨some 1, some 2, none⟩ ∧
    lignesValides demoParse ["ok", "oops"] = none := by
  constructor <;> decide

/-- C1 amended: only blank lines are dropped individually; a JSON parse
failure on any non-blank line aborts the whole fetch unit (no record of
the payload is inserted, and the exception is not caught by the
network-error handler of `download_one`): the unit's parse succeeds iff
every non-blank line parses. -/
theorem c1_amended_parse_abort (parseJson : String → Option Record) (data : List String) :
    lignesValides parseJson data = none ↔
      ∃ l ∈ data, isBlank l = false ∧ parseJson l = none := by
  induction data with
  | nil => simp [lignesValides]
  | cons l ls ih =>
    rw [lignesValides]
    by_cases hb : isBlank l
    · rw [if_pos hb, ih]
      simp only [List.mem_cons]
      constructor
      · rintro ⟨x, hx, hne, hp⟩
        exact ⟨x, Or.inr hx, hne, hp⟩
      · rintro ⟨x, hx | hx, hne, hp⟩
        · rw [hx] at hne; rw [hb] at hne; exact Bool.noConfusion hne
        · exact ⟨x, hx, hne, hp⟩
    · rw [if_neg hb]
      rw [Bool.not_eq_true] at hb
      cases hp : parseJson l with
      | none =>
        simp only [true_iff]
        exact ⟨l, List.mem_cons_self l ls, hb, hp⟩
      | some r =>
        cases hrest : lignesValides parseJson ls with
        | none =>
          simp only [true_iff]
          rcases (ih.mp hrest) with ⟨x, hx, hne, hpx⟩
          exact ⟨x, List.mem_cons_of_mem l hx, hne, hpx⟩
        | some rs =>
          simp only [reduceCtorEq, false_iff, not_exists, not_and, List.mem_cons]
          rintro x (rfl | hx) hne
          · rw [hp]; exact Option.some_ne_none r
          · intro hpx
            have hnone := ih.mpr ⟨x, hx, hne, hpx⟩
            rw [hrest] at hnone
            exact Option.noConfusion hnone

/-! ### blitz_range_download_V7.download_one: store insertion (lines 96-123)

Line 96-107: `INSERT OR IGNORE INTO impacts (timestamp, lat, lon, mcg)`
executed for every parsed record.  The table's `PRIMARY KEY (timestamp,
lat, lon)` makes the insert a no-op exactly when an existing row has an
EQUAL key — and SQLite key comparison treats `NULL` as distinct from
everything, including another `NULL` (`optKeyEq`).  A fresh row receives
rowid = (largest existing rowid) + 1.

Lines 110-123: for every record whose `lat` and `lon` are both non-null,
`SELECT rowid FROM impacts WHERE timestamp = ? AND lat = ? AND lon = ?`
fetches the first matching row in scan (rowid) order, and the rowid is
inserted into `impacts_rtree` with `INSERT OR IGNORE` (the R-Tree's `id`
is its key). -/

/-- SQLite equality of two primary-key components: `NULL` never equals
anything. -/
def optKeyEq : Option Int → Option Int → Bool
  | some x, some y => x == y
  | _, _ => false

/-- Conflict of record `r` (to be stored under slot `ts`) with an
existing row, under the `impacts` primary key. -/
def pkConflict (ts : Int) (r : Record) (row : Row) : Bool :=
  row.timestamp == ts && optKeyEq row.lat r.lat && optKeyEq row.lon r.lon

/-- The rowid SQLite assigns to a freshly inserted `impacts` row. -/
def nextRowid (impacts : List (Nat × Row)) : Nat :=
  impacts.foldl (fun m p => max m p.1) 0 + 1

/-- The `executemany` of lines 96-107: each record is appended unless it
conflicts with a row already present (INSERT OR IGNORE). -/
def insertImpacts (ts : Int) (records : List Record) (impacts : List (Nat × Row)) :
    List (Nat × Row) :=
  records.foldl
    (fun acc r =>
      if acc.any (fun p => pkConflict ts r p.2) then acc
      else acc ++ [(nextRowid acc, ⟨ts, r.lat, r.lon, r.mcg⟩)])
    impacts

/-- The rowid lookup of lines 114-116 (`fetchone` on the first matching
row in scan order). -/
def rtreeLookup (ts lat lon : Int) (impacts : List (Nat × Row)) : Option Nat :=
  (impacts.find? (fun p =>
      p.2.timestamp == ts && p.2.lat == some lat && p.2.lon == some lon)).map Prod.fst

/-- One iteration of the R-Tree loop of lines 110-123. -/
def insertRtreeOne (ts : Int) (impacts : List (Nat × Row)) (rt : List RtreeEntry)
    (r : Record) : List RtreeEntry :=
  match r.lat, r.lon with
  | some lat, some lon =>
    match rtreeLookup ts lat lon impacts with
    | some rid =>
      if rt.any (fun e => e.id == rid) then rt
      else rt ++ [⟨rid, lat, lat, lon, lon⟩]
    | none => rt
  | _, _ => rt

/-- The R-Tree loop of lines 110-123 over all records of the unit. -/
def insertRtree (ts : Int) (records : List Record) (impacts : List (Nat × Row))
    (rt : List RtreeEntry) : List RtreeEntry :=
  records.foldl (insertRtreeOne ts impacts) rt

/-- The whole store-insertion step of `download_one` (lines 92-125) for
one fetch unit: fill `impacts`, then index the rows with coordinates. -/
def insert_strikes (ts : Int) (records : List Record) (db : DB) : DB :=
  { db with
    impacts := insertImpacts ts records db.impacts,
    impactsRtree :=
      insertRtree ts records (insertImpacts ts records db.impacts) db.impactsRtree }

theorem optKeyEq_some (o : Option Int) (x : Int) : optKeyEq o (some x) = (o == some x) := by
  cases o <;> rfl

theorem optKeyEq_none (o : Option Int) : optKeyEq o none = false := by
  cases o <;> rfl

theorem pkConflict_nonnull (ts a b : Int) (m : Option Int) (row : Row) :
    pkConflict ts ⟨some a, some b, m⟩ row =
      (row.timestamp == ts && row.lat == some a && row.lon == some b) := by
  simp [pkConflict, optKeyEq_some]

theorem insertImpacts_single (ts : Int) (r : Record) (I : List (Nat × Row)) :
    insertImpacts ts [r] I =
      if I.any (fun p => pkConflict ts r p.2) then I
      else I ++ [(nextRowid I, ⟨ts, r.lat, r.lon, r.mcg⟩)] := rfl

theorem any_after_insert (ts a b : Int) (m : Option Int) (I : List (Nat × Row)) :
    (insertImpacts ts [⟨some a, some b, m⟩] I).any
      (fun p => pkConflict ts ⟨some a, some b, m⟩ p.2) = true := by
  rw [insertImpacts_single]
  split
  · assumption
  · rw [List.any_append]
    simp [pkConflict, optKeyEq]

theorem insertImpacts_noop (ts : Int) (r : Record) (I : List (Nat × Row))
    (h : I.any (fun p => pkConflict ts r p.2) = true) :
    insertImpacts ts [r] I = I := by
  rw [insertImpacts_single, if_pos h]

theorem rtreeLookup_after_insert (ts a b : Int) (m : Option Int) (I : List (Nat × Row)) :
    ∃ rid, rtreeLookup ts a b (insertImpacts ts [⟨some a, some b, m⟩] I) = some rid := by
  have hany := any_after_insert ts a b m I
  have hpred : (fun p : Nat × Row => pkConflict ts ⟨some a, some b, m⟩ p.2)
      = (fun p : Nat × Row => p.2.timestamp == ts && p.2.lat == some a && p.2.lon == some b) :=
    funext fun p => pkConflict_nonnull ts a b m p.2
  rw [hpred] at hany
  rcases List.any_eq_true.mp hany with ⟨p, hp, hQ⟩
  have hs : (List.find? (fun p : Nat × Row =>
      p.2.timestamp == ts && p.2.lat == some a && p.2.lon == some b)
      (insertImpacts ts [⟨some a, some b, m⟩] I)).isSome :=
    List.find?_isSome.mpr ⟨p, hp, hQ⟩
  rcases Option.isSome_iff_exists.mp hs with ⟨p0, hf⟩
  exact ⟨p0.1, by rw [rtreeLookup, hf]; rfl⟩

theorem insertRtreeOne_of_lookup (ts a b : Int) (m : Option Int) (rid : Nat)
    (I : List (Nat × Row)) (RT : List RtreeEntry)
    (hl : rtreeLookup ts a b I = some rid) :
    insertRtreeOne ts I RT ⟨some a, some b, m⟩ =
      (if RT.any (fun e => e.id == rid) then RT else RT ++ [⟨rid, a, a, b, b⟩]) := by
  simp only [insertRtreeOne]
  rw [hl]

theorem any_id_after_insertRtreeOne (a b : Int) (rid : Nat) (RT : List RtreeEntry) :
    ((if RT.any (fun e => e.id == rid) then RT
      else RT ++ [⟨rid, a, a, b, b⟩]) : List RtreeEntry).any (fun e => e.id == rid) = true := by
  split
  · assumption
  · rw [List.any_append]
    simp

/-- C5: inserting a strike row with non-null coordinates a second time
changes nothing (`insert_strikes` is idempotent on such a record, over
ANY store state), and from an empty store the double insertion leaves
exactly one `impacts` row and exactly one spatial-index entry. -/
theorem c5_insert_idempotent (ts a b : Int) (m : Option Int) :
    (∀ db : DB,
      insert_strikes ts [⟨some a, some b, m⟩] (insert_strikes ts [⟨some a, some b, m⟩] db)
        = insert_strikes ts [⟨some a, some b, m⟩] db) ∧
    (insert_strikes ts [⟨some a, some b, m⟩]
        (insert_strikes ts [⟨some a, some b, m⟩] emptyDB)).impacts.length = 1 ∧
    (insert_strikes ts [⟨some a, some b, m⟩]
        (insert_strikes ts [⟨some a, some b, m⟩] emptyDB)).impactsRtree.length = 1 := by
  have key : ∀ db : DB,
      insert_strikes ts [⟨some a, some b, m⟩] (insert_strikes ts [⟨some a, some b, m⟩] db)
        = insert_strikes ts [⟨some a, some b, m⟩] db := by
    rintro ⟨I, RT, EV⟩
    have hI1 := insertImpacts_noop ts ⟨some a, some b, m⟩
      (insertImpacts ts [⟨some a, some b, m⟩] I) (any_after_insert ts a b m I)
    rcases rtreeLookup_after_insert ts a b m I with ⟨rid, hl⟩
    show DB.mk
        (insertImpacts ts [⟨some a, some b, m⟩] (insertImpacts ts [⟨some a, some b, m⟩] I))
        (insertRtree ts [⟨some a, some b, m⟩]
          (insertImpacts ts [⟨some a, some b, m⟩] (insertImpacts ts [⟨some a, some b, m⟩] I))
          (insertRtree ts [⟨some a, some b, m⟩] (insertImpacts ts [⟨some a, some b, m⟩] I) RT))
        EV
      = DB.mk (insertImpacts ts [⟨some a, some b, m⟩] I)
          (insertRtree ts [⟨some a, some b, m⟩] (insertImpacts ts [⟨some a, some b, m⟩] I) RT)
          EV
    rw [hI1]
    have hone : ∀ RT0, insertRtree ts [⟨some a, some b, m⟩]
        (insertImpacts ts [⟨some a, some b, m⟩] I) RT0
        = insertRtreeOne ts (insertImpacts ts [⟨some a, some b, m⟩] I) RT0
            ⟨some a, some b, m⟩ := fun RT0 => rfl
    rw [hone, hone, insertRtreeOne_of_lookup ts a b m rid _ _ hl,
      insertRtreeOne_of_lookup ts a b m rid _ _ hl,
      if_pos (any_id_after_insertRtreeOne a b rid RT)]
  refine ⟨key, ?_, ?_⟩ <;> rw [key emptyDB] <;>
    simp [insert_strikes, insertImpacts, insertRtree, insertRtreeOne, rtreeLookup,
      nextRowid, emptyDB, pkConflict, optKeyEq, List.find?]

/-- Witness fixing a concrete strike for the idempotent-insert theorem. -/
theorem c5_insert_idempotent_witness :
    insert_strikes 0 [⟨some 1, some 2, none⟩] (insert_strikes 0 [⟨some 1, some 2, none⟩] emptyDB)
      = insert_strikes 0 [⟨some 1, some 2, none⟩] emptyDB :=
  (c5_insert_idempotent 0 1 2 none).1 emptyDB

/-- C10: a record missing `lat` or `lon` never conflicts with any row —
SQLite treats a NULL primary-key component as distinct from everything —
so inserting the identical coordinate-less record twice from an empty
store yields TWO `impacts` rows (insertion is not idempotent for such
rows) while the spatial index stays empty. -/
theorem c10_null_key_not_idempotent (ts : Int) (m lt ln : Option Int)
    (h : lt = none ∨ ln = none) :
    (insert_strikes ts [⟨lt, ln, m⟩]
        (insert_strikes ts [⟨lt, ln, m⟩] emptyDB)).impacts.length = 2 ∧
    (insert_strikes ts [⟨lt, ln, m⟩]
        (insert_strikes ts [⟨lt, ln, m⟩] emptyDB)).impactsRtree = [] := by
  rcases h with h | h
  · subst h
    simp [insert_strikes, insertImpacts, insertRtree, insertRtreeOne, rtreeLookup,
      nextRowid, emptyDB, pkConflict, optKeyEq]
  · subst h
    cases lt <;>
      simp [insert_strikes, insertImpacts, insertRtree, insertRtreeOne, rtreeLookup,
        nextRowid, emptyDB, pkConflict, optKeyEq]

/-- Witness fixing a concrete coordinate-less record for the NULL-key
theorem. -/
theorem c10_null_key_witness :
    (insert_strikes 7 [⟨none, none, some 3⟩]
        (insert_strikes 7 [⟨none, none, some 3⟩] emptyDB)).impacts.length = 2 ∧
    (insert_strikes 7 [⟨none, none, some 3⟩]
        (insert_strikes 7 [⟨none, none, some 3⟩] emptyDB)).impactsRtree = [] :=
  c10_null_key_not_idempotent 7 (some 3) none none (Or.inl rfl)

/-! ### purge_blitz.main (lines 82-166)

One purge run, executed inside a single SQLite transaction (the three
DELETEs and the audit INSERT share the connection of line 104 and are
committed together at line 165): modelled as one state transition.

* line 89: `impacts_cutoff = now - days`; line 92: `keep_recent = now - 2`
  (both `timedelta(days=...)`, i.e. 1440 resp. 2880 minutes here);
* line 125: `DELETE FROM impacts WHERE timestamp < impacts_cutoff`;
* lines 130-142: unless disabled, `DELETE FROM events WHERE timestamp < keep_recent
  AND (event_period IS NULL OR event_period < impacts_cutoff)`;
* lines 145-148: `DELETE FROM impacts_rtree WHERE id NOT IN (SELECT rowid FROM impacts)`;
* lines 151-163: INSERT a fresh "purge" event stamped `now`.  Its
  `event_period` column receives the TEXT `"-∞ / < <date>"`, which is
  not an ISO timestamp; the only code reading it (the predicate above)
  treats it exactly like NULL — the text sorts below every ISO
  timestamp, so `event_period < cutoff` holds whenever `IS NULL` would —
  hence it is embedded as `none`.

The `CREATE TABLE IF NOT EXISTS events`, the WAL pragma, the timestamp
index and the final `VACUUM` do not change table contents and are
omitted. -/

/-- The events-deletion predicate of lines 134-141. -/
def eventDelete (keepRecent cutoff : Int) (ev : Event) : Bool :=
  decide (ev.timestamp < keepRecent) &&
    (match ev.period with
     | none => true
     | some p => decide (p < cutoff))

/-- One run of `purge_blitz.main` against the store. -/
def purge_blitz_main (now days : Int) (disableEventsPurge : Bool) (db : DB) : DB :=
  let impactsCutoff := now - 1440 * days
  let keepRecent := now - 2880
  let impacts1 := db.impacts.filter (fun p => !decide (p.2.timestamp < impactsCutoff))
  let events1 :=
    if disableEventsPurge then db.events
    else db.events.filter (fun ev => !eventDelete keepRecent impactsCutoff ev)
  let rtree1 := db.impactsRtree.filter (fun e => impacts1.any (fun p => p.1 == e.id))
  { impacts := impacts1,
    impactsRtree := rtree1,
    events := events1 ++
      [⟨now, "purge", toString (db.impacts.length - impacts1.length), none⟩] }

/-- C4: after a purge run — strike deletion, orphan cleanup and audit
insert forming one transaction, modelled as a single state transition —
every spatial-index entry references an existing `impacts` row. -/
theorem c4_no_orphan_index_entries (now days : Int) (disable : Bool) (db : DB) :
    ∀ e ∈ (purge_blitz_main now days disable db).impactsRtree,
      ∃ p ∈ (purge_blitz_main now days disable db).impacts, p.1 = e.id := by
  intro e he
  simp only [purge_blitz_main] at he ⊢
  rw [List.mem_filter] at he
  rcases List.any_eq_true.mp he.2 with ⟨p, hp, hpe⟩
  exact ⟨p, hp, by simpa using hpe⟩

/-- A one-strike store whose only row survives the purge, for the
orphan-freedom witness. -/
def purgeDemoDB : DB :=
  ⟨[(1, ⟨100, some 0, some 0, none⟩)], [⟨1, 0, 0, 0, 0⟩], []⟩

/-- Witness: the surviving index entry of the demo store references a
surviving strike row. -/
theorem c4_no_orphan_witness :
    ∃ p ∈ (purge_blitz_main 100 0 false purgeDemoDB).impacts,
      p.1 = (⟨1, 0, 0, 0, 0⟩ : RtreeEntry).id :=
  c4_no_orphan_index_entries 100 0 false purgeDemoDB ⟨1, 0, 0, 0, 0⟩ (by decide)

theorem eventDelete_iff (k c : Int) (ev : Event) :
    eventDelete k c ev = true ↔
      ev.timestamp < k ∧ (ev.period = none ∨ ∃ p, ev.period = some p ∧ p < c) := by
  cases hper : ev.period with
  | none => simp [eventDelete, hper]
  | some p => simp [eventDelete, hper]

/-- C6: with event purging enabled, a pre-existing audit event survives
the run iff NOT (its own timestamp is older than now minus the 2-day
grace window AND (its period is unset OR its period is older than the
impacts cutoff)); i.e. it is deleted exactly under that conjunction. -/
theorem c6_event_purge_predicate (now days : Int) (db : DB) (ev : Event)
    (hev : ev ∈ db.events) :
    ev ∈ (purge_blitz_main now days false db).events ↔
      ¬(ev.timestamp < now - 2880 ∧
        (ev.period = none ∨ ∃ p, ev.period = some p ∧ p < now - 1440 * days)) := by
  simp only [purge_blitz_main, if_neg (Bool.false_ne_true), List.mem_append,
    List.mem_filter, List.mem_singleton]
  constructor
  · rintro (⟨-, hkeep⟩ | hpev) hcond
    · rw [← eventDelete_iff (now - 2880) (now - 1440 * days) ev] at hcond
      rw [hcond] at hkeep
      exact Bool.noConfusion hkeep
    · have hts : ev.timestamp = now := congrArg Event.timestamp hpev
      have := hcond.1
      omega
  · intro hcond
    refine Or.inl ⟨hev, ?_⟩
    have : eventDelete (now - 2880) (now - 1440 * days) ev = false := by
      rcases Bool.eq_false_or_eq_true (eventDelete (now - 2880) (now - 1440 * days) ev) with h | h
      · exact absurd ((eventDelete_iff _ _ _).mp h) hcond
      · exact h
    rw [this]
    rfl

/-- A store holding a single audit event stamped "now" whose period
points far into the past, for the grace-window witness. -/
def graceDemoDB : DB :=
  ⟨[], [], [⟨100, "download_success", "", some (-100000)⟩]⟩

/-- Witness: the freshly stamped event with a stale period survives the
purge run — the grace window protects it. -/
theorem c6_grace_window_witness :
    (⟨100, "download_success", "", some (-100000)⟩ : Event) ∈
      (purge_blitz_main 100 15 false graceDemoDB).events :=
  (c6_event_purge_predicate 100 15 graceDemoDB _ (by decide)).mpr
    (fun h => absurd h.1 (by decide))

/-- C7: the strike purge is strict — a pre-existing `impacts` row
survives the run iff its timestamp is at or after the cutoff, so a row
stamped exactly at the cutoff is retained and every strictly older row
is deleted. -/
theorem c7_purge_strict_boundary (now days : Int) (disable : Bool) (db : DB)
    (p : Nat × Row) (hp : p ∈ db.impacts) :
    p ∈ (purge_blitz_main now days disable db).impacts ↔
      now - 1440 * days ≤ p.2.timestamp := by
  simp only [purge_blitz_main, List.mem_filter, Bool.not_eq_eq_eq_not, Bool.not_true,
    decide_eq_false_iff_not, not_lt]
  exact ⟨fun h => h.2, fun h => ⟨hp, h⟩⟩

/-- A two-strike store with one row at the cutoff and one strictly
older, for the purge-boundary witness. -/
def boundaryDemoDB : DB :=
  ⟨[(1, ⟨50, none, none, none⟩), (2, ⟨49, none, none, none⟩)], [], []⟩

/-- Witness: the row stamped exactly at the cutoff is retained. -/
theorem c7_boundary_witness :
    (1, (⟨50, none, none, none⟩ : Row)) ∈
      (purge_blitz_main 50 0 false boundaryDemoDB).impacts :=
  (c7_purge_strict_boundary 50 0 false boundaryDemoDB _ (by decide)).mpr (by decide)

/-! ### blitz_query.requete_impacts (lines 39-67)

`SELECT timestamp, lat, lon, mcg FROM impacts WHERE timestamp BETWEEN ?
AND ?` — an inclusive range filter with no `ORDER BY`.  SQLite does NOT
serve this with a rowid scan: `PRIMARY KEY (timestamp, lat, lon)`
creates the automatic index `sqlite_autoindex_impacts_1`, and the query
plan is `SEARCH impacts USING INDEX sqlite_autoindex_impacts_1
(timestamp>? AND timestamp<?)`, so rows are produced in index-key
order: `timestamp` ascending, then `lat`, then `lon` — `NULL` sorting
before every value in an ascending index — with equal full keys tied by
rowid (index entries are (key, rowid) tuples).  The embedding filters
the table to the window and sorts by that key.  The optional spatial
branch only adds `AND rowid IN (SELECT id FROM impacts_rtree ...)`, a
further filter on the same index search; the claims address the
temporal path, and the bounding-box arithmetic (floating-point `cos`)
is outside the embedding. -/

/-- Ascending-index order on a nullable key column: `NULL` sorts before
every value. -/
def nullFirstLt : Option Int → Option Int → Bool
  | none, some _ => true
  | some x, some y => decide (x < y)
  | _, _ => false

/-- The order in which `sqlite_autoindex_impacts_1` yields rows:
lexicographic on (timestamp, lat, lon), ties broken by rowid. -/
def indexKeyLe (p q : Nat × Row) : Bool :=
  decide (p.2.timestamp < q.2.timestamp) ||
    (decide (p.2.timestamp = q.2.timestamp) &&
      (nullFirstLt p.2.lat q.2.lat ||
        (p.2.lat == q.2.lat &&
          (nullFirstLt p.2.lon q.2.lon ||
            (p.2.lon == q.2.lon && decide (p.1 ≤ q.1))))))

/-- `indexKeyLe` as a relation, for the sort. -/
def indexLe (p q : Nat × Row) : Prop := indexKeyLe p q = true

instance : DecidableRel indexLe :=
  fun p q => inferInstanceAs (Decidable (indexKeyLe p q = true))

theorem indexLe_total : ∀ p q : Nat × Row, indexLe p q ∨ indexLe q p := by
  rintro ⟨i, ts, la, lo, m⟩ ⟨j, ts2, la2, lo2, m2⟩
  simp only [indexLe, indexKeyLe]
  cases la <;> cases la2 <;> cases lo <;> cases lo2 <;>
    simp [nullFirstLt] <;> omega

theorem indexLe_trans :
    ∀ p q r : Nat × Row, indexLe p q → indexLe q r → indexLe p r := by
  rintro ⟨i, ts, la, lo, m⟩ ⟨j, ts2, la2, lo2, m2⟩ ⟨k, ts3, la3, lo3, m3⟩
  simp only [indexLe, indexKeyLe]
  cases la <;> cases la2 <;> cases la3 <;> cases lo <;> cases lo2 <;> cases lo3 <;>
    simp [nullFirstLt] <;> omega

instance : IsTotal (Nat × Row) indexLe := ⟨indexLe_total⟩

instance : IsTrans (Nat × Row) indexLe := ⟨indexLe_trans⟩

theorem indexLe_timestamp_le (p q : Nat × Row) (h : indexLe p q) :
    p.2.timestamp ≤ q.2.timestamp := by
  simp only [indexLe, indexKeyLe, Bool.or_eq_true, Bool.and_eq_true,
    decide_eq_true_eq] at h
  rcases h with h | ⟨h, -⟩ <;> omega

/-- `requete_impacts(start, end)` without the optional spatial filter:
the rows whose timestamp lies in the inclusive `[start, end]` window,
in the order the primary-key autoindex search produces them. -/
def requete_impacts (start stop : Int) (db : DB) : List Row :=
  (List.insertionSort indexLe
    (db.impacts.filter (fun p =>
      decide (start ≤ p.2.timestamp) && decide (p.2.timestamp ≤ stop)))).map Prod.snd

/-- A store whose rowid order disagrees with timestamp order: the strike
at minute 5 was ingested (rowid 1) before the strike at minute 3
(rowid 2) — fetch units complete out of order. -/
def outOfOrderDB : DB :=
  ⟨[(1, ⟨5, some 10, some 20, none⟩), (2, ⟨3, some 11, some 21, none⟩)],
   [⟨1, 10, 10, 20, 20⟩, ⟨2, 11, 11, 21, 21⟩], []⟩

/-- C9: the range query returns its rows ordered by timestamp ascending
(the primary-key autoindex that serves the `timestamp BETWEEN` search
yields index-key order) and returns exactly the in-window rows; being a
pure function of the snapshot, two identical queries over the same
snapshot return the same ordered rows — concretely, a snapshot ingested
out of timestamp order still comes back as [3, 5]. -/
theorem c9_sorted_by_timestamp (start stop : Int) (db : DB) :
    List.Sorted (· ≤ ·) ((requete_impacts start stop db).map Row.timestamp) ∧
    (∀ r : Row, r ∈ requete_impacts start stop db ↔
      (∃ p ∈ db.impacts, p.2 = r) ∧ start ≤ r.timestamp ∧ r.timestamp ≤ stop) ∧
    (requete_impacts 0 10 outOfOrderDB).map Row.timestamp = [3, 5] := by
  refine ⟨?_, ?_, by decide⟩
  · have hs : List.Sorted indexLe
        (List.insertionSort indexLe
          (db.impacts.filter (fun p =>
            decide (start ≤ p.2.timestamp) && decide (p.2.timestamp ≤ stop)))) :=
      List.sorted_insertionSort indexLe _
    rw [requete_impacts, List.map_map]
    exact List.Pairwise.map _ (fun p q h => indexLe_timestamp_le p q h) hs
  · intro r
    rw [requete_impacts]
    simp only [List.mem_map]
    constructor
    · rintro ⟨p, hp, rfl⟩
      have hp2 : p ∈ db.impacts.filter (fun p =>
          decide (start ≤ p.2.timestamp) && decide (p.2.timestamp ≤ stop)) :=
        (List.perm_insertionSort indexLe _).mem_iff.mp hp
      rw [List.mem_filter] at hp2
      simp only [Bool.and_eq_true, decide_eq_true_eq] at hp2
      exact ⟨⟨p, hp2.1, rfl⟩, hp2.2.1, hp2.2.2⟩
    · rintro ⟨⟨p, hp, rfl⟩, h1, h2⟩
      refine ⟨p, (List.perm_insertionSort indexLe _).mem_iff.mpr ?_, rfl⟩
      rw [List.mem_filter]
      simp only [Bool.and_eq_true, decide_eq_true_eq]
      exact ⟨hp, h1, h2⟩

end LightningViewer
